import Mathlib

/-!
Shallow embedding of `gmc_export.py` (Google Maps Coordinate CSV exporter).

The script walks a cursor-paginated jobs API and flattens each job record
into a CSV row aligned to a header computed from the team's custom-field
schema.  JSON objects become structures with `Option` fields (a `none`
models an absent key); Python `None` propagation and the places where the
code would raise (`state.get` on `None`, `' / '.join(None)`, unpacking an
empty `zip`) are modelled with `Except`.

Numeric `jobChange` timestamps (decimal strings in the transport, converted
with `int(...)`) are modelled as already-parsed `Option Nat`; `lat`/`lng`
values pass through the code untouched from JSON to the CSV writer, so they
are modelled as the decimal literal string the writer would print.
-/

namespace GmcExport

/-- Cell value handed to the csv writer: `none` is Python `None`
(written out as the empty field), `some s` is a string field. -/
abbrev Cell := Option String

/-- Entry of a job's `jobChange` list; only the timestamp is requested. -/
structure JobChange where
  timestamp : Option Nat
deriving DecidableEq

/-- Entry of `state.customFields.customField`. -/
structure CustomFieldEntry where
  customFieldId : Option Nat
  value : Option String
deriving DecidableEq

/-- The `state.customFields` wrapper object. -/
structure CustomFields where
  customField : Option (List CustomFieldEntry)
deriving DecidableEq

/-- The `state.location` object. -/
structure Location where
  addressLine : Option (List String)
  lat : Option String
  lng : Option String
deriving DecidableEq

/-- The nested `state` object of a job. -/
structure JobState where
  title : Option String
  assignee : Option String
  progress : Option String
  location : Option Location
  customerName : Option String
  customerPhoneNumber : Option String
  note : Option (List String)
  customFields : Option CustomFields
deriving DecidableEq

/-- A job record as returned by the list call with the projection
`items(id,state,jobChange(timestamp))`. -/
structure Job where
  id : String
  state : Option JobState
  jobChange : Option (List JobChange)
deriving DecidableEq

/-- One response page of the jobs list call: `items` is absent when the
response carries no `items` key at all, and `nextPageToken` is the
continuation cursor consumed by `list_next`. -/
structure Page where
  items : Option (List Job)
  nextPageToken : Option String
deriving DecidableEq

/-- Embedding of `Team.get_all_jobs` on a trace of response pages: the
loop breaks when a response has no `items` key; otherwise it yields the
page's items and advances iff `list_next` finds a `nextPageToken`. -/
def get_all_jobs : List Page → List Job
  | [] => []
  | p :: rest =>
    match p.items with
    | none => []
    | some items =>
      items ++ (match p.nextPageToken with
        | none => []
        | some _ => get_all_jobs rest)

/-- Python `max` over a (nonempty, by construction) list of naturals. -/
def pyMax (l : List Nat) : Nat := l.foldl Nat.max 0

/-- The digits of `n`, zero-padded on the left to width 2 (strftime). -/
def pad2 (n : Nat) : String :=
  if n < 10 then "0" ++ toString n else toString n

/-- The digits of `n`, zero-padded on the left to width 4 (strftime). -/
def pad4 (n : Nat) : String :=
  if n < 10 then "000" ++ toString n
  else if n < 100 then "00" ++ toString n
  else if n < 1000 then "0" ++ toString n
  else toString n

/-- Proleptic-Gregorian date (year, month, day) of a day count since
1970-01-01, the civil-from-days algorithm used by
`datetime.utcfromtimestamp`. -/
def civilFromDays (days : Nat) : Nat × Nat × Nat :=
  let z := days + 719468
  let era := z / 146097
  let doe := z % 146097
  let yoe := (doe - doe / 1460 + doe / 36524 - doe / 146096) / 365
  let y := yoe + era * 400
  let doy := doe - (365 * yoe + yoe / 4 - yoe / 100)
  let mp := (5 * doy + 2) / 153
  let d := doy - (153 * mp + 2) / 5 + 1
  let m := if mp < 10 then mp + 3 else mp - 9
  (if m ≤ 2 then y + 1 else y, m, d)

/-- Embedding of `datetime.utcfromtimestamp(secs).strftime(a format
ending in UTC)`: the UTC calendar timestamp of an epoch-second count. -/
def formatUtc (secs : Nat) : String :=
  let c := civilFromDays (secs / 86400)
  let rem := secs % 86400
  pad4 c.1 ++ "-" ++ pad2 c.2.1 ++ "-" ++ pad2 c.2.2 ++ " " ++
    pad2 (rem / 3600) ++ ":" ++ pad2 (rem % 3600 / 60) ++ ":" ++
    pad2 (rem % 60) ++ " UTC"

/-- Python `' / '.join`. -/
def joinSlash (l : List String) : String := String.intercalate " / " l

/-- The effective custom-field entry list of a state:
`(state.get(customFields) or empty).get(customField) or empty`. -/
def effFields (state : JobState) : List CustomFieldEntry :=
  (state.customFields.bind (fun cf => cf.customField)).getD []

/-- Lookup in the dict comprehension built from a job's custom-field
entries: keys are `int(field.get(customFieldId) or 0)`, a later entry
overwrites an earlier one with the same key, and a missing key yields
the empty string. -/
def customGet (fields : List CustomFieldEntry) (i : Nat) : String :=
  match fields.reverse.find? (fun f => f.customFieldId.getD 0 == i) with
  | some f => f.value.getD ""
  | none => ""

/-- Message of the AttributeError raised by calling `get` on `None`. -/
def errAttrGet : String := "AttributeError: NoneType object has no attribute get"

/-- Message of the TypeError raised by joining `None`. -/
def errJoinNone : String := "TypeError: can only join an iterable"

/-- The list the change maximum ranges over:
`job.get(jobChange) or a singleton empty dict` (an absent or empty
change list is replaced by one entry with no timestamp). -/
def pyChanges : Option (List JobChange) → List JobChange
  | none => [JobChange.mk none]
  | some [] => [JobChange.mk none]
  | some (c :: cs) => c :: cs

/-- Embedding of `max(int(c.get(timestamp) or 0) for c in
job.get(jobChange) or a singleton empty dict)`. -/
def lastChange (job : Job) : Nat :=
  pyMax ((pyChanges job.jobChange).map (fun c => c.timestamp.getD 0))

/-- The Last update field: the change maximum rendered as a UTC calendar
timestamp of its epoch seconds (floor division of the milliseconds by
1000), or the empty string when the maximum is 0. -/
def lastUpdate (job : Job) : String :=
  if lastChange job = 0 then "" else formatUtc (lastChange job / 1000)

/-- The cell list of one data row, in the order of writerow (lines
168-180 of the script). -/
def rowCells (ids : List Nat) (job : Job) (state : JobState)
    (location : Location) (note : List String) : List Cell :=
  [some job.id,
   some (lastUpdate job),
   some (state.title.getD ""),
   some (state.assignee.getD ""),
   some (state.progress.getD ""),
   some (joinSlash (location.addressLine.getD [])),
   location.lat,
   location.lng,
   state.customerName,
   state.customerPhoneNumber,
   some (joinSlash note)] ++
  ids.map (fun i => some (customGet (effFields state) i))

/-- Embedding of the per-job body of the export loop (lines 156-181 of
the script): builds the row's cell list; a job whose `state`,
`state.location` or `state.note` is absent raises (AttributeError /
TypeError) exactly as the script does. -/
def buildRow (ids : List Nat) (job : Job) : Except String (List Cell) :=
  match job.state with
  | none => Except.error errAttrGet
  | some state =>
    match state.location with
    | none => Except.error errAttrGet
    | some location =>
      match state.note with
      | none => Except.error errJoinNone
      | some note => Except.ok (rowCells ids job state location note)

/-- Ordering used by Python `sorted` on the schema's `(id, name)` pairs.
The pairs come from a dict keyed by the integer id, so ids are distinct
and tuple comparison reduces to comparison of the ids. -/
def schemaLe (a b : Nat × String) : Prop := a.1 ≤ b.1

instance : DecidableRel schemaLe := fun a b => inferInstanceAs (Decidable (a.1 ≤ b.1))

instance : IsTotal (Nat × String) schemaLe := ⟨fun a b => Nat.le_total a.1 b.1⟩

instance : IsTrans (Nat × String) schemaLe := ⟨fun _ _ _ h1 h2 => Nat.le_trans h1 h2⟩

/-- Embedding of `sorted(custom_fields.items())`. -/
def sortedSchema (schema : List (Nat × String)) : List (Nat × String) :=
  List.insertionSort schemaLe schema

/-- The eleven fixed column headings written before the custom-field
names. -/
def fixedHeader : List String :=
  ["Job ID", "Last update", "Title", "Assignee", "Progress", "Address",
   "Lat", "Lon", "Contact name", "Contact phone", "Notes"]

/-- The job loop of `export_to_csv`: one row written per job in order,
`count` incremented per job, a progress tick on stderr every tenth job
when verbose.  Result: written rows, final count, stderr tick count. -/
def exportLoop (ids : List Nat) (verbose : Bool) (jobs : List Job)
    (count ticks : Nat) : Except String (List (List Cell) × Nat × Nat) :=
  match jobs with
  | [] => Except.ok ([], count, ticks)
  | job :: rest =>
    match buildRow ids job with
    | Except.error e => Except.error e
    | Except.ok row =>
      let count2 := count + 1
      let ticks2 := if verbose && count2 % 10 == 0 then ticks + 1 else ticks
      (exportLoop ids verbose rest count2 ticks2).map (fun r => (row :: r.1, r.2))

/-- Embedding of `export_to_csv(team, out, verbose)` applied to a team
whose schema is `schema` (as the item list of the custom-field dict) and
whose paginated walk yields `jobs`.  Unpacking the sorted item list of
an empty schema raises ValueError before anything is written; otherwise
the header row is written first and the job loop runs.  Result: rows
written to the sink in order, returned count, stderr tick count. -/
def export_to_csv (schema : List (Nat × String)) (jobs : List Job)
    (verbose : Bool) : Except String (List (List Cell) × Nat × Nat) :=
  match schema with
  | [] => Except.error "ValueError: need more than 0 values to unpack"
  | _ :: _ =>
    let ids := (sortedSchema schema).map Prod.fst
    let names := (sortedSchema schema).map Prod.snd
    let headerRow := (fixedHeader ++ names).map Option.some
    let t1 := if verbose then 2 else 0
    (exportLoop ids verbose jobs 0 t1).map (fun r => (headerRow :: r.1, r.2))

/-- Field quoting of the csv module: a field containing the delimiter, a
quote or a line break is quoted, with inner quotes doubled. -/
def csvField (s : String) : String :=
  if s.data.any (fun ch => ch == ',' || ch == '"' || ch == '\r' || ch == '\n')
  then "\"" ++ String.mk (s.data.flatMap (fun c => if c == '"' then ['"', '"'] else [c])) ++ "\""
  else s

/-- Text the csv writer produces for one cell; Python `None` prints as
the empty field. -/
def renderCell : Cell → String
  | none => ""
  | some s => csvField s

/-- Text the csv writer produces for one row (line terminator left to
the caller). -/
def renderRow (row : List Cell) : String :=
  String.intercalate "," (row.map renderCell)

end GmcExport

namespace GmcExport

/-! ### Helper lemmas shared by the claim theorems -/

theorem formatUtc_ne_empty (s : Nat) : formatUtc s ≠ "" := by
  intro h
  have h1 : (formatUtc s).length = 0 := by rw [h]; rfl
  unfold formatUtc at h1
  simp only [String.length_append] at h1
  have h2 : (" UTC" : String).length = 4 := rfl
  rw [h2] at h1
  omega

/-! ### C1: end-to-end scenario -/

/-- State of the single job of the end-to-end scenario of the spec. -/
def scenarioState : JobState :=
  { title := some "Fix leak",
    assignee := some "a@x.com",
    progress := some "COMPLETED",
    location := some
      { addressLine := some ["1 Main St", "Apt 2"],
        lat := some "40.1",
        lng := some "-73.9" },
    customerName := some "Bob",
    customerPhoneNumber := some "555-1234",
    note := some ["urgent", "done"],
    customFields := some
      { customField := some [{ customFieldId := some 7, value := some "High" }] } }

/-- The single job of the end-to-end scenario of the spec. -/
def scenarioJob : Job :=
  { id := "J1",
    state := some scenarioState,
    jobChange := some [{ timestamp := some 1000 }, { timestamp := some 5000 }] }

/-- C1: with schema mapping 7 to Priority and the single scenario job, the
export writes exactly the specified header line and data line (rendered as
csv text) and returns count 1. -/
theorem c1_end_to_end_scenario :
    (export_to_csv [(7, "Priority")] [scenarioJob] false).map
        (fun r => (r.1.map renderRow, r.2.1)) =
      Except.ok
        (["Job ID,Last update,Title,Assignee,Progress,Address,Lat,Lon,Contact name,Contact phone,Notes,Priority",
          "J1,1970-01-01 00:00:05 UTC,Fix leak,a@x.com,COMPLETED,1 Main St / Apt 2,40.1,-73.9,Bob,555-1234,urgent / done,High"],
         1) := by
  rfl

end GmcExport

namespace GmcExport

/-! ### C10: empty schema -/

/-- C10: with an empty custom-field schema the export raises ValueError
while unpacking the sorted schema, before any row (header included) is
written and before any count is produced. -/
theorem c10_empty_schema_raises (jobs : List Job) (verbose : Bool) :
    export_to_csv [] jobs verbose =
      Except.error "ValueError: need more than 0 values to unpack" := rfl

/-! ### C9: progress indication is a pure side channel -/

theorem exportLoop_data_ignores_verbose (ids : List Nat) (jobs : List Job)
    (v v2 : Bool) (n t t2 : Nat) :
    (exportLoop ids v jobs n t).map (fun r => (r.1, r.2.1)) =
      (exportLoop ids v2 jobs n t2).map (fun r => (r.1, r.2.1)) := by
  induction jobs generalizing n t t2 with
  | nil => rfl
  | cons job rest ih =>
    simp only [exportLoop]
    cases hb : buildRow ids job with
    | error e => rfl
    | ok row =>
      have hcomm : ∀ (x : Except String (List (List Cell) × Nat × Nat)),
          (x.map (fun r => (row :: r.1, r.2))).map (fun r => (r.1, r.2.1)) =
            (x.map (fun r => (r.1, r.2.1))).map (fun r => (row :: r.1, r.2)) := by
        intro x; cases x <;> rfl
      rw [hcomm, hcomm, ih]

/-- C9: the rows sent to the data sink and the returned count are the same
with progress indication on and off (only the stderr tick count differs);
an error outcome is likewise identical. -/
theorem c9_verbose_does_not_change_data (schema : List (Nat × String))
    (jobs : List Job) :
    (export_to_csv schema jobs true).map (fun r => (r.1, r.2.1)) =
      (export_to_csv schema jobs false).map (fun r => (r.1, r.2.1)) := by
  cases schema with
  | nil => rfl
  | cons p ps =>
    simp only [export_to_csv]
    have hcomm : ∀ (x : Except String (List (List Cell) × Nat × Nat))
        (hd : List Cell),
        (x.map (fun r => (hd :: r.1, r.2))).map (fun r => (r.1, r.2.1)) =
          (x.map (fun r => (r.1, r.2.1))).map (fun r => (hd :: r.1, r.2)) := by
      intro x hd; cases x <;> rfl
    rw [hcomm, hcomm, exportLoop_data_ignores_verbose _ _ true false _ _ _]

end GmcExport

namespace GmcExport

/-! ### C3: pagination termination -/

/-- A job used as page content in the pagination scenarios. -/
def pageJob : Job := { id := "X", state := none, jobChange := none }

/-- C3 counterexample: in a trace whose every response carries an items
key, the walk nevertheless terminates at a page whose items list is
empty but present (because that response has no continuation cursor), so
the job on the following page is never produced.  Termination is
therefore not equivalent to the absence of the items key, and an
empty-but-present items list can end the walk. -/
theorem c3_counterexample :
    (([{ items := some [], nextPageToken := none },
       { items := some [pageJob], nextPageToken := some "tok" }] : List Page).all
        (fun p => p.items.isSome)) = true ∧
    get_all_jobs
      [{ items := some [], nextPageToken := none },
       { items := some [pageJob], nextPageToken := some "tok" }] = [] := ⟨rfl, rfl⟩

/-- C3 as amended: the walk stops at the first response lacking an items
key or lacking a continuation cursor.  Along a prefix of pages that all
carry both an items key and a cursor, every item is produced in order; a
final page carrying a cursor but no items key ends the sequence right
after the prior pages' items, without error; and a page with an
empty-but-present items list and a cursor does not end the walk. -/
theorem c3_pagination_termination (prior : List Page) (last : Page)
    (rest rest2 : List Page) (tok : String) (items : List Job)
    (hprior : ∀ p ∈ prior, p.items.isSome = true ∧ p.nextPageToken.isSome = true)
    (hlast : last.items = none) :
    get_all_jobs (prior ++ last :: rest) =
      prior.flatMap (fun p => p.items.getD []) ∧
    get_all_jobs ({ items := some items, nextPageToken := some tok } :: rest2) =
      items ++ get_all_jobs rest2 := by
  constructor
  · induction prior with
    | nil => simp [get_all_jobs, hlast]
    | cons p ps ih =>
      obtain ⟨hit, htok⟩ := hprior p (List.mem_cons_self p ps)
      obtain ⟨its, hits⟩ := Option.isSome_iff_exists.mp hit
      obtain ⟨tk, htk⟩ := Option.isSome_iff_exists.mp htok
      have ihs := ih (fun q hq => hprior q (List.mem_cons_of_mem p hq))
      simp [get_all_jobs, hits, htk, ihs]
  · simp [get_all_jobs]

end GmcExport

namespace GmcExport

theorem c3_witness :
    get_all_jobs
      [{ items := some [pageJob], nextPageToken := some "a" },
       { items := none, nextPageToken := some "b" }] =
      ([{ items := some [pageJob], nextPageToken := some "a" }] : List Page).flatMap
        (fun p => p.items.getD []) ∧
    get_all_jobs [{ items := some ([] : List Job), nextPageToken := some "t" }] =
      [] ++ get_all_jobs [] :=
  c3_pagination_termination [{ items := some [pageJob], nextPageToken := some "a" }]
    { items := none, nextPageToken := some "b" } [] [] "t" []
    (by decide) rfl

/-! ### C4: the Last update column -/

/-- Maximum numeric timestamp across the jobChange entries of a job, an
entry with a missing timestamp counting as 0 and a missing or empty
jobChange list giving 0 (the wording of the spec). -/
def maxChangeTs (job : Job) : Nat :=
  match job.jobChange with
  | none => 0
  | some l => (l.map (fun c => c.timestamp.getD 0)).foldr Nat.max 0

theorem foldl_max_eq_foldr (a : Nat) (l : List Nat) :
    l.foldl Nat.max a = Nat.max a (l.foldr Nat.max 0) := by
  induction l generalizing a with
  | nil => simp
  | cons x xs ih =>
    simp only [List.foldl, List.foldr, ih (Nat.max a x)]
    exact Nat.max_assoc a x _

theorem lastChange_eq_maxChangeTs (job : Job) :
    lastChange job = maxChangeTs job := by
  rcases job with ⟨i, s, jc⟩
  rcases jc with _ | l
  · rfl
  · rcases l with _ | ⟨c, cs⟩
    · rfl
    · simp only [lastChange, pyChanges, pyMax, maxChangeTs, List.map,
        List.foldl, List.foldr]
      rw [foldl_max_eq_foldr]
      congr 1
      exact Nat.max_eq_right (Nat.zero_le _)

theorem buildRow_ok_iff (ids : List Nat) (job : Job) (row : List Cell) :
    buildRow ids job = Except.ok row ↔
      ∃ state location note, job.state = some state ∧
        state.location = some location ∧ state.note = some note ∧
        row = rowCells ids job state location note := by
  constructor
  · intro h
    unfold buildRow at h
    split at h
    · exact absurd h (by simp)
    next state hs =>
      split at h
      · exact absurd h (by simp)
      next location hl =>
        split at h
        · exact absurd h (by simp)
        next note hn =>
          simp only [Except.ok.injEq] at h
          exact ⟨state, location, note, hs, hl, hn, h.symm⟩
  · rintro ⟨state, location, note, hs, hl, hn, hr⟩
    simp [buildRow, hs, hl, hn, hr]

/-- C4: whenever a job's row is built, its second cell is the maximum
jobChange timestamp (missing entries as 0, missing or empty list as 0)
converted from epoch milliseconds to a formatted UTC calendar timestamp;
the cell is the empty string exactly when that maximum is 0, and in
particular an empty or missing jobChange list yields the empty string. -/
theorem c4_last_update_cell (ids : List Nat) (job : Job) (row : List Cell)
    (h : buildRow ids job = Except.ok row) :
    row[1]? = some (some (if maxChangeTs job = 0 then ""
        else formatUtc (maxChangeTs job / 1000))) ∧
    (row[1]? = some (some "") ↔ maxChangeTs job = 0) ∧
    ((job.jobChange = none ∨ job.jobChange = some []) → row[1]? = some (some "")) := by
  obtain ⟨state, location, note, hs, hl, hn, hr⟩ := (buildRow_ok_iff ids job row).mp h
  have hrow : row[1]? = some (some (if maxChangeTs job = 0 then ""
      else formatUtc (maxChangeTs job / 1000))) := by
    rw [hr]
    show some (some (lastUpdate job)) = _
    rw [lastUpdate, lastChange_eq_maxChangeTs]
  refine ⟨hrow, ?_, ?_⟩
  · rw [hrow]
    constructor
    · intro he
      by_contra hne
      rw [if_neg hne] at he
      simp only [Option.some.injEq] at he
      exact formatUtc_ne_empty _ he
    · intro h0; rw [if_pos h0]
  · intro hjc
    have h0 : maxChangeTs job = 0 := by
      rcases hjc with hjc | hjc <;> simp [maxChangeTs, hjc]
    rw [hrow, if_pos h0]

/-- State all of whose optional leaf fields are absent, with the
`location` and `note` objects themselves present. -/
def bareState : JobState :=
  { title := none, assignee := none, progress := none,
    location := some { addressLine := none, lat := none, lng := none },
    customerName := none, customerPhoneNumber := none,
    note := some [], customFields := none }

/-- A job all of whose optional leaf fields are absent but whose `state`,
`location` and `note` objects are present. -/
def bareJob : Job :=
  { id := "B", state := some bareState, jobChange := none }

theorem c4_witness :
    (buildRow [] scenarioJob = Except.ok
      [some "J1", some "1970-01-01 00:00:05 UTC", some "Fix leak",
       some "a@x.com", some "COMPLETED", some "1 Main St / Apt 2",
       some "40.1", some "-73.9", some "Bob", some "555-1234",
       some "urgent / done"]) ∧
    ([some "J1", some "1970-01-01 00:00:05 UTC", some "Fix leak",
      some "a@x.com", some "COMPLETED", some "1 Main St / Apt 2",
      some "40.1", some "-73.9", some "Bob", some "555-1234",
      some "urgent / done"] : List Cell)[1]? =
      some (some (if maxChangeTs scenarioJob = 0 then ""
        else formatUtc (maxChangeTs scenarioJob / 1000))) ∧
    (([some "J1", some "1970-01-01 00:00:05 UTC", some "Fix leak",
       some "a@x.com", some "COMPLETED", some "1 Main St / Apt 2",
       some "40.1", some "-73.9", some "Bob", some "555-1234",
       some "urgent / done"] : List Cell)[1]? = some (some "") ↔
      maxChangeTs scenarioJob = 0) ∧
    ((scenarioJob.jobChange = none ∨ scenarioJob.jobChange = some []) →
      ([some "J1", some "1970-01-01 00:00:05 UTC", some "Fix leak",
        some "a@x.com", some "COMPLETED", some "1 Main St / Apt 2",
        some "40.1", some "-73.9", some "Bob", some "555-1234",
        some "urgent / done"] : List Cell)[1]? = some (some "")) :=
  ⟨rfl, c4_last_update_cell [] scenarioJob _ rfl⟩

end GmcExport

namespace GmcExport

/-! ### C5: one row per job, in order, count = rows written -/

/-- Rows of all jobs in yield order (erring like the loop does on the
first malformed job), the reference for per-job row production. -/
def buildRows (ids : List Nat) : List Job → Except String (List (List Cell))
  | [] => Except.ok []
  | j :: js =>
    match buildRow ids j with
    | Except.error e => Except.error e
    | Except.ok row => (buildRows ids js).map (fun rs => row :: rs)

theorem exportLoop_ok_spec (ids : List Nat) (v : Bool) (jobs : List Job)
    (n t : Nat) (rows : List (List Cell)) (c tk : Nat)
    (h : exportLoop ids v jobs n t = Except.ok (rows, c, tk)) :
    c = n + jobs.length ∧ rows.length = jobs.length ∧
      buildRows ids jobs = Except.ok rows := by
  induction jobs generalizing n t rows c tk with
  | nil =>
    simp only [exportLoop, Except.ok.injEq, Prod.mk.injEq] at h
    obtain ⟨h1, h2, h3⟩ := h
    subst h1; subst h2; subst h3
    exact ⟨by simp, by simp, by simp [buildRows]⟩
  | cons job rest ih =>
    simp only [exportLoop] at h
    split at h
    · exact absurd h (by simp)
    next row hb =>
      cases he : exportLoop ids v rest (n + 1)
          (if v && (n + 1) % 10 == 0 then t + 1 else t) with
      | error e => rw [he] at h; exact absurd h (by simp [Except.map])
      | ok r =>
        obtain ⟨rows2, c2, tk2⟩ := r
        rw [he] at h
        simp only [Except.map, Except.ok.injEq, Prod.mk.injEq] at h
        obtain ⟨hrows, hc, htk⟩ := h
        obtain ⟨ihc, ihlen, ihrows⟩ := ih _ _ _ _ _ he
        refine ⟨?_, ?_, ?_⟩
        · rw [← hc, ihc, List.length_cons]; omega
        · rw [← hrows, List.length_cons, ihlen, List.length_cons]
        · simp [buildRows, hb, ihrows, ← hrows, Except.map]

theorem export_ok_elim (schema : List (Nat × String)) (jobs : List Job)
    (v : Bool) (rows : List (List Cell)) (c t : Nat)
    (h : export_to_csv schema jobs v = Except.ok (rows, c, t)) :
    ∃ dataRows,
      rows = ((fixedHeader ++ (sortedSchema schema).map Prod.snd).map Option.some)
        :: dataRows ∧
      exportLoop ((sortedSchema schema).map Prod.fst) v jobs 0
        (if v then 2 else 0) = Except.ok (dataRows, c, t) := by
  cases schema with
  | nil => exact absurd h (by simp [export_to_csv])
  | cons p ps =>
    simp only [export_to_csv] at h
    cases he : exportLoop ((sortedSchema (p :: ps)).map Prod.fst) v jobs 0
        (if v then 2 else 0) with
    | error e => rw [he] at h; exact absurd h (by simp [Except.map])
    | ok r =>
      obtain ⟨rows2, c2, tk2⟩ := r
      rw [he] at h
      simp only [Except.map, Except.ok.injEq, Prod.mk.injEq] at h
      obtain ⟨hrows, hc, htk⟩ := h
      refine ⟨rows2, hrows.symm, ?_⟩
      rw [hc, htk]

/-- C5: on a successful export the returned count equals the number of
jobs yielded by the walk, the data rows (header excluded) are exactly
one row per job in yield order, and with zero jobs the output is the
header row alone with count 0. -/
theorem c5_count_and_order (schema : List (Nat × String)) (jobs : List Job)
    (v : Bool) (rows : List (List Cell)) (c t : Nat)
    (h : export_to_csv schema jobs v = Except.ok (rows, c, t)) :
    c = jobs.length ∧
    ∃ dataRows,
      rows = ((fixedHeader ++ (sortedSchema schema).map Prod.snd).map Option.some)
        :: dataRows ∧
      dataRows.length = jobs.length ∧
      buildRows ((sortedSchema schema).map Prod.fst) jobs = Except.ok dataRows ∧
      (jobs = [] → rows =
        [(fixedHeader ++ (sortedSchema schema).map Prod.snd).map Option.some]) := by
  obtain ⟨dataRows, hrows, hloop⟩ := export_ok_elim schema jobs v rows c t h
  obtain ⟨hc, hlen, hbuild⟩ := exportLoop_ok_spec _ _ _ _ _ _ _ _ hloop
  refine ⟨by omega, dataRows, hrows, hlen, hbuild, ?_⟩
  intro hnil
  rw [hrows]
  have : dataRows = [] := by
    rw [hnil] at hlen; exact List.length_eq_zero.mp hlen
  rw [this]

theorem c5_witness :
    (export_to_csv [(7, "Priority")] [] false =
      Except.ok ([(fixedHeader ++ (sortedSchema [(7, "Priority")]).map Prod.snd).map
        Option.some], 0, 0)) ∧
    (0 = ([] : List Job).length ∧
    ∃ dataRows,
      [(fixedHeader ++ (sortedSchema [(7, "Priority")]).map Prod.snd).map Option.some] =
        ((fixedHeader ++ (sortedSchema [(7, "Priority")]).map Prod.snd).map Option.some)
          :: dataRows ∧
      dataRows.length = ([] : List Job).length ∧
      buildRows ((sortedSchema [(7, "Priority")]).map Prod.fst) [] =
        Except.ok dataRows ∧
      (([] : List Job) = [] →
        [(fixedHeader ++ (sortedSchema [(7, "Priority")]).map Prod.snd).map Option.some] =
          [(fixedHeader ++ (sortedSchema [(7, "Priority")]).map Prod.snd).map
            Option.some])) :=
  ⟨rfl, c5_count_and_order [(7, "Priority")] [] false _ 0 0 rfl⟩

end GmcExport

namespace GmcExport

/-! ### C2: the header row and the stability of its column order -/

theorem sortedSchema_sorted (s : List (Nat × String)) :
    List.Sorted schemaLe (sortedSchema s) :=
  List.sorted_insertionSort schemaLe s

theorem sortedSchema_perm (s : List (Nat × String)) :
    (sortedSchema s).Perm s :=
  List.perm_insertionSort schemaLe s

theorem sortedSchema_eq_of_perm (s1 s2 : List (Nat × String)) (hp : s1.Perm s2)
    (hnd : (s1.map Prod.fst).Nodup) : sortedSchema s1 = sortedSchema s2 := by
  have hperm : (sortedSchema s1).Perm (sortedSchema s2) :=
    ((sortedSchema_perm s1).trans hp).trans (sortedSchema_perm s2).symm
  have hnd1 : ((sortedSchema s1).map Prod.fst).Nodup :=
    (((sortedSchema_perm s1).map Prod.fst).nodup_iff).mpr hnd
  have hnd2 : ((sortedSchema s2).map Prod.fst).Nodup :=
    (((sortedSchema_perm s2).map Prod.fst).nodup_iff).mpr
      ((hp.map Prod.fst).nodup_iff.mp hnd)
  have hs1 : List.Sorted (fun a b : Nat × String => a.1 < b.1) (sortedSchema s1) :=
    ((sortedSchema_sorted s1).and (List.pairwise_map.mp hnd1)).imp
      (fun h => Nat.lt_of_le_of_ne h.1 h.2)
  have hs2 : List.Sorted (fun a b : Nat × String => a.1 < b.1) (sortedSchema s2) :=
    ((sortedSchema_sorted s2).and (List.pairwise_map.mp hnd2)).imp
      (fun h => Nat.lt_of_le_of_ne h.1 h.2)
  haveI : IsAntisymm (Nat × String) (fun a b => a.1 < b.1) :=
    ⟨fun a b h1 h2 => absurd h1 (Nat.lt_asymm h2)⟩
  exact List.eq_of_perm_of_sorted hperm hs1 hs2

/-- C2: on any successful export the header row is the eleven fixed
column names followed by the custom-field names in ascending order of
their numeric id, and for schemas with distinct ids (the team schema is
a dict keyed by id) the sorted column order is the same for any
iteration order of the mapping. -/
theorem c2_header_columns (schema schema2 : List (Nat × String))
    (jobs : List Job) (v : Bool) (rows : List (List Cell)) (c t : Nat)
    (hok : export_to_csv schema jobs v = Except.ok (rows, c, t))
    (hperm : schema.Perm schema2)
    (hnd : (schema.map Prod.fst).Nodup) :
    (∃ dataRows, rows =
      ((["Job ID", "Last update", "Title", "Assignee", "Progress", "Address",
         "Lat", "Lon", "Contact name", "Contact phone", "Notes"] ++
        (sortedSchema schema).map Prod.snd).map Option.some) :: dataRows) ∧
    List.Sorted (fun a b : Nat × String => a.1 ≤ b.1) (sortedSchema schema) ∧
    sortedSchema schema = sortedSchema schema2 := by
  obtain ⟨dataRows, hrows, _⟩ := export_ok_elim schema jobs v rows c t hok
  exact ⟨⟨dataRows, hrows⟩, sortedSchema_sorted schema,
    sortedSchema_eq_of_perm _ _ hperm hnd⟩

theorem c2_witness :
    (∃ dataRows, ([[some "Job ID", some "Last update", some "Title",
        some "Assignee", some "Progress", some "Address", some "Lat",
        some "Lon", some "Contact name", some "Contact phone", some "Notes",
        some "Size", some "Priority"]] : List (List Cell)) =
      ((["Job ID", "Last update", "Title", "Assignee", "Progress", "Address",
         "Lat", "Lon", "Contact name", "Contact phone", "Notes"] ++
        (sortedSchema [(7, "Priority"), (3, "Size")]).map Prod.snd).map
          Option.some) :: dataRows) ∧
    List.Sorted (fun a b : Nat × String => a.1 ≤ b.1)
      (sortedSchema [(7, "Priority"), (3, "Size")]) ∧
    sortedSchema [(7, "Priority"), (3, "Size")] =
      sortedSchema [(3, "Size"), (7, "Priority")] :=
  c2_header_columns [(7, "Priority"), (3, "Size")] [(3, "Size"), (7, "Priority")]
    [] false _ 0 0 rfl (by decide) (by decide)

end GmcExport

namespace GmcExport

/-! ### C6: trailing custom-field cells -/

theorem customGet_of_not_mem (fields : List CustomFieldEntry) (i : Nat)
    (h : ∀ f ∈ fields, f.customFieldId.getD 0 ≠ i) : customGet fields i = "" := by
  unfold customGet
  have hnone : fields.reverse.find? (fun f => f.customFieldId.getD 0 == i) = none := by
    rw [List.find?_eq_none]
    intro x hx
    simp only [beq_iff_eq]
    exact h x (List.mem_reverse.mp hx)
  rw [hnone]

theorem customGet_of_mem_nodup (fields : List CustomFieldEntry)
    (f : CustomFieldEntry) (i : Nat)
    (hnd : (fields.map (fun g => g.customFieldId.getD 0)).Nodup)
    (hmem : f ∈ fields) (hid : f.customFieldId.getD 0 = i) :
    customGet fields i = f.value.getD "" := by
  unfold customGet
  cases hfind : fields.reverse.find? (fun g => g.customFieldId.getD 0 == i) with
  | none =>
    rw [List.find?_eq_none] at hfind
    exact ((hfind f (List.mem_reverse.mpr hmem)) (by simp [hid])).elim
  | some g =>
    have hg : g.customFieldId.getD 0 = i := by
      simpa using List.find?_some hfind
    have hgmem : g ∈ fields := List.mem_reverse.mp (List.mem_of_find?_eq_some hfind)
    have hgf : g = f := List.inj_on_of_nodup_map hnd hgmem hmem (by rw [hg, hid])
    rw [hgf]

/-- C6: on any built row the trailing custom-field cells are one per
schema-defined custom field (however many values the job has), each cell
being the dict lookup of the sorted schema id; a job whose custom-field
object is absent gets all-empty trailing cells; and the lookup returns
the entry's value when an entry with the id exists (ids unique) and the
empty string when none does. -/
theorem c6_trailing_cells (schema : List (Nat × String)) (job : Job)
    (state : JobState) (row : List Cell)
    (h : buildRow ((sortedSchema schema).map Prod.fst) job = Except.ok row)
    (hs : job.state = some state) :
    (row.drop 11).length = schema.length ∧
    row.drop 11 = (sortedSchema schema).map
      (fun p => some (customGet (effFields state) p.1)) ∧
    (state.customFields = none →
      row.drop 11 = (sortedSchema schema).map (fun _ => some "")) ∧
    (∀ i, (∀ f ∈ effFields state, f.customFieldId.getD 0 ≠ i) →
      customGet (effFields state) i = "") ∧
    (∀ i f, ((effFields state).map (fun g => g.customFieldId.getD 0)).Nodup →
      f ∈ effFields state → f.customFieldId.getD 0 = i →
      customGet (effFields state) i = f.value.getD "") := by
  obtain ⟨state2, location, note, hs2, hl, hn, hr⟩ := (buildRow_ok_iff _ job row).mp h
  rw [hs] at hs2
  obtain rfl : state = state2 := by injection hs2
  have hdrop : row.drop 11 = ((sortedSchema schema).map Prod.fst).map
      (fun i => some (customGet (effFields state) i)) := by
    rw [hr]; rfl
  have hmap : row.drop 11 = (sortedSchema schema).map
      (fun p => some (customGet (effFields state) p.1)) := by
    rw [hdrop, List.map_map]; rfl
  refine ⟨?_, hmap, ?_, ?_, ?_⟩
  · rw [hmap, List.length_map]
    exact (sortedSchema_perm schema).length_eq
  · intro hcf
    have heff : effFields state = [] := by simp [effFields, hcf]
    rw [hmap, heff]
    rfl
  · exact fun i hno => customGet_of_not_mem _ i hno
  · exact fun i f hnd hmem hid => customGet_of_mem_nodup _ f i hnd hmem hid

/-- The cell list built for the scenario job against the schema with the
single custom field 7. -/
def scenarioRow : List Cell :=
  [some "J1", some "1970-01-01 00:00:05 UTC", some "Fix leak", some "a@x.com",
   some "COMPLETED", some "1 Main St / Apt 2", some "40.1", some "-73.9",
   some "Bob", some "555-1234", some "urgent / done", some "High"]

theorem c6_witness :
    (scenarioRow.drop 11).length = [(7, "Priority")].length ∧
    scenarioRow.drop 11 = (sortedSchema [(7, "Priority")]).map
      (fun p => some (customGet (effFields scenarioState) p.1)) ∧
    (scenarioState.customFields = none →
      scenarioRow.drop 11 = (sortedSchema [(7, "Priority")]).map (fun _ => some "")) ∧
    (∀ i, (∀ f ∈ effFields scenarioState, f.customFieldId.getD 0 ≠ i) →
      customGet (effFields scenarioState) i = "") ∧
    (∀ i f, ((effFields scenarioState).map (fun g => g.customFieldId.getD 0)).Nodup →
      f ∈ effFields scenarioState → f.customFieldId.getD 0 = i →
      customGet (effFields scenarioState) i = f.value.getD "") :=
  c6_trailing_cells [(7, "Priority")] scenarioJob scenarioState scenarioRow rfl rfl

end GmcExport

namespace GmcExport

/-! ### C7: missing nested fields -/

/-- A job whose `state` object is entirely absent. -/
def malformedJob : Job := { id := "B1", state := none, jobChange := none }

/-- A job whose `state` is present but whose `note` list is absent. -/
def noNoteJob : Job :=
  { id := "N1", state := some { scenarioState with note := none }, jobChange := none }

/-- C7 counterexample: a job with a missing `state` makes the whole
export raise (AttributeError) instead of substituting defaults, losing
the well-formed job's row too, and a job with a missing `note` subfield
raises a TypeError in the row builder. -/
theorem c7_counterexample :
    export_to_csv [(7, "Priority")] [scenarioJob, malformedJob] false =
      Except.error errAttrGet ∧
    buildRow [7] noNoteJob = Except.error errJoinNone := ⟨rfl, rfl⟩

theorem exportLoop_error_of_bad_job (ids : List Nat) (v : Bool)
    (pre post : List Job) (j : Job) (e0 : String)
    (hj : buildRow ids j = Except.error e0) :
    ∀ n t, ∃ e, exportLoop ids v (pre ++ j :: post) n t = Except.error e := by
  induction pre with
  | nil =>
    intro n t
    exact ⟨e0, by simp [exportLoop, hj]⟩
  | cons a pre2 ih =>
    intro n t
    rw [List.cons_append]
    cases hb : buildRow ids a with
    | error e => exact ⟨e, by simp [exportLoop, hb]⟩
    | ok row =>
      obtain ⟨e, he⟩ := ih (n + 1) (if v && (n + 1) % 10 == 0 then t + 1 else t)
      refine ⟨e, ?_⟩
      simp only [exportLoop, hb]
      rw [he]
      rfl

/-- C7 as amended: a job whose `state`, `location` and `note` objects
are present always yields a row (every other field may be absent and is
defaulted or passed through), but a missing `state`, `location` or
`note` raises, and one such job fails the entire export. -/
theorem c7_missing_nested_fields (ids : List Nat) (job : Job)
    (state : JobState) (location : Location) (note : List String)
    (h1 : job.state = some state) (h2 : state.location = some location)
    (h3 : state.note = some note) :
    (∃ row, buildRow ids job = Except.ok row) ∧
    (∀ j : Job, j.state = none → buildRow ids j = Except.error errAttrGet) ∧
    (∀ (j : Job) (s : JobState), j.state = some s → s.location = none →
      buildRow ids j = Except.error errAttrGet) ∧
    (∀ (j : Job) (s : JobState) (l : Location), j.state = some s →
      s.location = some l → s.note = none →
      buildRow ids j = Except.error errJoinNone) ∧
    (∀ (p : Nat × String) (ps : List (Nat × String)) (pre post : List Job)
      (j : Job) (v : Bool), j.state = none →
      ∃ e, export_to_csv (p :: ps) (pre ++ j :: post) v = Except.error e) := by
  refine ⟨?_, ?_, ?_, ?_, ?_⟩
  · exact ⟨rowCells ids job state location note,
      (buildRow_ok_iff ids job _).mpr ⟨state, location, note, h1, h2, h3, rfl⟩⟩
  · intro j hj; simp [buildRow, hj]
  · intro j s hs hl; simp [buildRow, hs, hl]
  · intro j s l hs hl hn; simp [buildRow, hs, hl, hn]
  · intro p ps pre post j v hj
    have hbad : buildRow ((sortedSchema (p :: ps)).map Prod.fst) j =
        Except.error errAttrGet := by simp [buildRow, hj]
    obtain ⟨e, he⟩ := exportLoop_error_of_bad_job _ v pre post j _ hbad 0
      (if v then 2 else 0)
    exact ⟨e, by simp [export_to_csv, he, Except.map]⟩

theorem c7_witness :
    (∃ row, buildRow [7] scenarioJob = Except.ok row) ∧
    (∀ j : Job, j.state = none → buildRow [7] j = Except.error errAttrGet) ∧
    (∀ (j : Job) (s : JobState), j.state = some s → s.location = none →
      buildRow [7] j = Except.error errAttrGet) ∧
    (∀ (j : Job) (s : JobState) (l : Location), j.state = some s →
      s.location = some l → s.note = none →
      buildRow [7] j = Except.error errJoinNone) ∧
    (∀ (p : Nat × String) (ps : List (Nat × String)) (pre post : List Job)
      (j : Job) (v : Bool), j.state = none →
      ∃ e, export_to_csv (p :: ps) (pre ++ j :: post) v = Except.error e) :=
  c7_missing_nested_fields [7] scenarioJob scenarioState
    { addressLine := some ["1 Main St", "Apt 2"], lat := some "40.1",
      lng := some "-73.9" }
    ["urgent", "done"] rfl rfl rfl

end GmcExport

namespace GmcExport

/-! ### C8: contact fields default to empty cells -/

theorem csvField_empty : csvField "" = "" := rfl

/-- C8: when the state lacks `customerName` or `customerPhoneNumber`
the written Contact name and Contact phone cells are the empty string,
just as the Title, Assignee and Progress cells are when those fields
are absent. -/
theorem c8_contact_defaults (ids : List Nat) (job : Job) (state : JobState)
    (row : List Cell) (h : buildRow ids job = Except.ok row)
    (hs : job.state = some state)
    (hname : state.customerName = none) (hphone : state.customerPhoneNumber = none) :
    (row.map renderCell)[8]? = some "" ∧
    (row.map renderCell)[9]? = some "" ∧
    (state.title = none → (row.map renderCell)[2]? = some "") ∧
    (state.assignee = none → (row.map renderCell)[3]? = some "") ∧
    (state.progress = none → (row.map renderCell)[4]? = some "") := by
  obtain ⟨state2, location, note, hs2, hl, hn, hr⟩ := (buildRow_ok_iff _ _ _).mp h
  rw [hs] at hs2
  obtain rfl : state = state2 := by injection hs2
  subst hr
  refine ⟨?_, ?_, ?_, ?_, ?_⟩
  · simp [rowCells, hname, renderCell]
  · simp [rowCells, hphone, renderCell]
  · intro ht; simp [rowCells, ht, renderCell, csvField_empty]
  · intro ha; simp [rowCells, ha, renderCell, csvField_empty]
  · intro hp; simp [rowCells, hp, renderCell, csvField_empty]

/-- Cells built for `bareJob` (no custom fields in the schema). -/
def bareRow : List Cell :=
  [some "B", some "", some "", some "", some "", some "",
   none, none, none, none, some ""]

theorem c8_witness :
    (bareRow.map renderCell)[8]? = some "" ∧
    (bareRow.map renderCell)[9]? = some "" ∧
    (bareState.title = none → (bareRow.map renderCell)[2]? = some "") ∧
    (bareState.assignee = none → (bareRow.map renderCell)[3]? = some "") ∧
    (bareState.progress = none → (bareRow.map renderCell)[4]? = some "") :=
  c8_contact_defaults [] bareJob bareState bareRow rfl rfl rfl rfl

end GmcExport
